import Mathlib

/-!
Verification of the JurisTrack analysis pipeline.

This file gives a shallow embedding of the compliance-analysis core
(`jargon_resolver.py`, `regulation_kb.py`, `compliance_analyzer.py`) and
proves the specified properties about it.

Modelling conventions:
* Python strings are `List Char` (`Str`), lowercasing is ASCII `Char.toLower`
  (all corpus and dictionary strings are ASCII).
* Python dicts are association lists in insertion order; `dictSet` models
  `d[k] = v` (replace in place if the key exists, else append) and
  `dictUpdate` models `d.update(other)`.
* Machine floats (similarity scores, thresholds) are modelled as rationals;
  `int(confidence * 0.3)` for a natural-number confidence is the exact floor
  `confidence * 3 / 10`.
* Fallible Python code is `Except Str`; a `try/except` boundary is a `match`
  on the `Except` value.
-/

/-- Python strings, as lists of characters. -/
abbrev Str := List Char

/-- Convert a Lean string literal to the `Str` representation. -/
abbrev str (x : String) : Str := x.toList

/-- `text.lower()` (ASCII). -/
def lowerL (t : Str) : Str := t.map Char.toLower

/-- Boolean test: `n` is a prefix of `h` (used to model literal regex matching). -/
def isPre : Str → Str → Bool
  | [], _ => true
  | _ :: _, [] => false
  | a :: n, b :: h => if a = b then isPre n h else false

/-- Boolean test: `n` occurs as a contiguous substring of `h`
(Python `n in h`): try a literal match at every suffix. -/
def isSub (n : Str) : Str → Bool
  | [] => n.isEmpty
  | h@(_ :: t₀) => isPre n h || isSub n t₀

/-- `", ".join(parts)`. -/
def joinSep (sep : Str) : List Str → Str
  | [] => []
  | [p] => p
  | p :: q :: t₀ => p ++ sep ++ joinSep sep (q :: t₀)

/-- Python `str.strip()`. -/
def pyStrip (t : Str) : Str :=
  ((t.dropWhile Char.isWhitespace).reverse.dropWhile Char.isWhitespace).reverse

/-- Python `enumerate(l, n)`. -/
def pyEnumFrom (n : ℕ) : List α → List (ℕ × α)
  | [] => []
  | a :: t₀ => (n, a) :: pyEnumFrom (n + 1) t₀

/-- Python `enumerate(l)`. -/
def pyEnum (l : List α) : List (ℕ × α) := pyEnumFrom 0 l

/-- `repr` of a natural number, as a `Str`. -/
def natRepr (n : ℕ) : Str := (Nat.repr n).toList

/-- Lexicographic boolean comparison of strings (models Python `sorted`
on strings, which compares code points). -/
def strLe : Str → Str → Bool
  | [], _ => true
  | _ :: _, [] => false
  | a :: x, b :: y => if a < b then true else if b < a then false else strLe x y

/-- Python `sorted(strings)`. -/
def sortedStrs (l : List Str) : List Str :=
  l.insertionSort (fun a b => strLe a b = true)

/-- Last element of a string, if any. -/
def lastO : Str → Option Char
  | [] => none
  | [c] => some c
  | _ :: c :: t₀ => lastO (c :: t₀)

/-- Regex word character: `\w` restricted to ASCII (letters, digits, `_`). -/
def isWordChar (c : Char) : Bool := c.isAlphanum || c = '_'

/-- Word-character test of an optional character; a string edge counts as
non-word. -/
def optWord : Option Char → Bool
  | none => false
  | some c => isWordChar c

/-- One attempted match of the pattern `\b<term>\b` (with `term` a literal,
as produced by `re.escape`) at the current position of `s`, where `prev` is
the character immediately before that position.  The empty pattern never
arises from the jargon dictionary and is modelled as a non-match. -/
def wb_match_at (term : Str) (prev : Option Char) (s : Str) : Bool :=
  !term.isEmpty && isPre term s
    && (optWord prev != optWord term.head?)
    && (optWord (lastO term) != optWord (s.drop term.length).head?)

/-- `re.search(r'\b' + re.escape(term) + r'\b', ·)` scanning from a position
whose preceding character is `prev`. -/
def wb_search_from (term : Str) : Option Char → Str → Bool
  | prev, [] => wb_match_at term prev []
  | prev, c :: t₀ => wb_match_at term prev (c :: t₀) || wb_search_from term (some c) t₀

/-- `re.search(r'\b' + re.escape(term) + r'\b', s) is not None`. -/
def wb_search (term s : Str) : Bool := wb_search_from term none s

/- ---------------------------------------------------------------------
Association lists with Python-dict semantics.
--------------------------------------------------------------------- -/

/-- The keys of a dict, in insertion order. -/
def dkeys (d : List (Str × Str)) : List Str := d.map Prod.fst

/-- Python `d[k] = v`: replace in place if present, else append. -/
def dictSet (d : List (Str × Str)) (k v : Str) : List (Str × Str) :=
  if d.any (fun p => decide (p.1 = k)) then
    d.map (fun p => if p.1 = k then (k, v) else p)
  else d ++ [(k, v)]

/-- Python `d.update(other)`. -/
def dictUpdate (d other : List (Str × Str)) : List (Str × Str) :=
  other.foldl (fun acc p => dictSet acc p.1 p.2) d

/-- Python `d.get(k)` / `d[k]` lookup (first binding; unique by
construction in every dict this development builds). -/
def dget : List (Str × Str) → Str → Option Str
  | [], _ => none
  | (k, v) :: t₀, q => if k = q then some v else dget t₀ q

/- ---------------------------------------------------------------------
`jargon_resolver.py`
--------------------------------------------------------------------- -/

/-- `JargonResolver._build_jargon_dictionary` (the seed dictionary,
transcribed verbatim, in source order). -/
def build_jargon_dictionary : List (Str × Str) :=
  [ (str "jellybean", str "content moderation system"),
    (str "glow", str "recommendation algorithm"),
    (str "spanner", str "distributed database system"),
    (str "libra", str "user safety framework"),
    (str "compass", str "content policy engine"),
    (str "lighthouse", str "compliance monitoring system"),
    (str "prism", str "user analytics platform"),
    (str "atlas", str "geographic content routing"),
    (str "nexus", str "cross-platform integration"),
    (str "quantum", str "real-time processing engine"),
    (str "ugc", str "user-generated content"),
    (str "csam", str "child sexual abuse material"),
    (str "dmca", str "digital millennium copyright act takedown"),
    (str "violative content", str "content that violates community guidelines"),
    (str "shadow ban", str "content visibility restriction"),
    (str "content takedown", str "content removal from platform"),
    (str "deboost", str "reduce content reach in algorithm"),
    (str "safety mode", str "restricted content viewing mode"),
    (str "trust and safety", str "user protection and content moderation"),
    (str "minor user", str "user under 18 years old"),
    (str "verified account", str "account with verified identity"),
    (str "creator fund", str "monetization program for content creators"),
    (str "brand account", str "business or organization account"),
    (str "influencer tier", str "classification based on follower count"),
    (str "account restriction", str "limitation on account functionality"),
    (str "age gate", str "age verification checkpoint"),
    (str "fyp", str "for you page recommendation feed"),
    (str "engagement signal", str "user interaction metric"),
    (str "content signal", str "algorithmic content quality indicator"),
    (str "user signal", str "behavioral pattern indicator"),
    (str "recommendation engine", str "algorithm suggesting content to users"),
    (str "content ranking", str "algorithmic content prioritization"),
    (str "personalization vector", str "user preference data representation"),
    (str "interest graph", str "user interest mapping system"),
    (str "pii", str "personally identifiable information"),
    (str "device fingerprint", str "unique device identification method"),
    (str "cross-device tracking", str "user activity tracking across devices"),
    (str "data retention policy", str "rules for keeping user data"),
    (str "gdpr compliance", str "general data protection regulation adherence"),
    (str "ccpa compliance", str "california consumer privacy act adherence"),
    (str "data localization", str "storing data within specific geographic boundaries"),
    (str "user consent", str "explicit permission for data processing"),
    (str "geo-blocking", str "restricting content by geographic location"),
    (str "region lock", str "limiting feature access by location"),
    (str "compliance framework", str "regulatory adherence system"),
    (str "age verification system", str "method to verify user age"),
    (str "parental consent", str "guardian permission for minor accounts"),
    (str "curfew mode", str "time-based usage restrictions"),
    (str "local content policy", str "region-specific content rules"),
    (str "regulatory sandbox", str "testing environment for compliance features"),
    (str "api endpoint", str "software interface access point"),
    (str "microservice", str "independent software component"),
    (str "feature flag", str "toggle for enabling/disabling features"),
    (str "a/b test", str "comparing two versions of a feature"),
    (str "circuit breaker", str "system failure protection mechanism"),
    (str "rate limiting", str "controlling request frequency"),
    (str "load balancer", str "traffic distribution system"),
    (str "cdn", str "content delivery network"),
    (str "kpi", str "key performance indicator"),
    (str "dau", str "daily active users"),
    (str "mau", str "monthly active users"),
    (str "ltv", str "lifetime value"),
    (str "churn rate", str "user retention metric"),
    (str "conversion funnel", str "user journey tracking"),
    (str "retention cohort", str "user group retention analysis"),
    (str "growth hack", str "strategy to increase user adoption"),
    (str "short form video", str "video content under 60 seconds"),
    (str "live streaming", str "real-time video broadcast"),
    (str "duet", str "collaborative video format"),
    (str "stitch", str "video remix feature"),
    (str "sound bite", str "audio clip for video creation"),
    (str "hashtag challenge", str "trending topic campaign"),
    (str "branded content", str "sponsored or promotional material"),
    (str "auto-mod", str "automated content moderation"),
    (str "human review", str "manual content evaluation"),
    (str "appeal process", str "user challenge to moderation decision"),
    (str "strike system", str "progressive penalty framework"),
    (str "community guidelines", str "platform usage rules"),
    (str "terms of service", str "legal agreement for platform use"),
    (str "content policy", str "rules governing acceptable content") ]

/-- The mutable state of a `JargonResolver` instance. -/
structure JargonState where
  jargon_dictionary : List (Str × Str)
deriving DecidableEq

/-- A freshly constructed `JargonResolver`. -/
def jargonInit : JargonState := ⟨build_jargon_dictionary⟩

/-- `JargonResolver.add_custom_jargon` (the key is lowercased on insertion). -/
def add_custom_jargon (st : JargonState) (jargon meaning : Str) : JargonState :=
  ⟨dictSet st.jargon_dictionary (lowerL jargon) meaning⟩

/-- The acronym table of `JargonResolver._find_acronyms`. -/
def acronym_map : List (Str × Str) :=
  [ (str "AI", str "artificial intelligence"),
    (str "ML", str "machine learning"),
    (str "NLP", str "natural language processing"),
    (str "API", str "application programming interface"),
    (str "SDK", str "software development kit"),
    (str "CDN", str "content delivery network"),
    (str "DNS", str "domain name system"),
    (str "SSL", str "secure sockets layer"),
    (str "HTTPS", str "hypertext transfer protocol secure"),
    (str "JSON", str "javascript object notation"),
    (str "XML", str "extensible markup language"),
    (str "SQL", str "structured query language"),
    (str "NoSQL", str "not only structured query language"),
    (str "REST", str "representational state transfer"),
    (str "CRUD", str "create read update delete"),
    (str "QR", str "quick response"),
    (str "IP", str "internet protocol"),
    (str "TCP", str "transmission control protocol"),
    (str "HTTP", str "hypertext transfer protocol"),
    (str "FTP", str "file transfer protocol") ]

/-- ASCII uppercase letter. -/
def isUpperAZ (c : Char) : Bool := 'A' ≤ c && c ≤ 'Z'

/-- Maximal runs of word characters of a text, in order (the tokens between
which `\b` boundaries fall). -/
def wordTokensAux : Str → Str → List Str
  | [], cur => if cur.isEmpty then [] else [cur.reverse]
  | c :: t₀, cur =>
    if isWordChar c then wordTokensAux t₀ (c :: cur)
    else if cur.isEmpty then wordTokensAux t₀ [] else cur.reverse :: wordTokensAux t₀ []

/-- Maximal word-character runs of a text. -/
def wordTokens (t : Str) : List Str := wordTokensAux t []

/-- `JargonResolver._find_acronyms`.  `re.findall(r'\b[A-Z]{2,6}\b', text)`
returns exactly the maximal word-character runs that consist of 2 to 6
uppercase ASCII letters (a longer or mixed run can satisfy neither `\b`
after backtracking); each found token present in the acronym table is
entered into the result dict in order. -/
def find_acronyms (text : Str) : List (Str × Str) :=
  let found :=
    (wordTokens text).filter
      (fun t₀ => decide (2 ≤ t₀.length) && decide (t₀.length ≤ 6) && t₀.all isUpperAZ)
  found.foldl
    (fun acc m =>
      match dget acronym_map m with
      | some v => dictSet acc m v
      | none => acc) []

/-- The compound-phrase table of `JargonResolver._find_compound_terms`. -/
def compound_terms : List (Str × Str) :=
  [ (str "machine learning model", str "algorithm that learns from data to make predictions"),
    (str "content moderation pipeline", str "automated system for reviewing and filtering content"),
    (str "user behavior analytics", str "analysis of user interaction patterns"),
    (str "real-time processing", str "immediate data processing without delay"),
    (str "distributed system", str "software running across multiple connected computers"),
    (str "microservice architecture", str "software design using small independent services"),
    (str "cloud infrastructure", str "computing resources provided over the internet"),
    (str "data pipeline", str "series of processes for moving and transforming data"),
    (str "feature engineering", str "process of selecting and transforming data for machine learning"),
    (str "a/b testing framework", str "system for comparing different versions of features"),
    (str "recommendation algorithm", str "system that suggests content based on user preferences"),
    (str "content delivery network", str "distributed system for delivering web content efficiently"),
    (str "load balancing", str "distributing workload across multiple computing resources"),
    (str "auto-scaling", str "automatically adjusting computing resources based on demand"),
    (str "fault tolerance", str "system ability to continue operating despite failures"),
    (str "data governance", str "management of data availability, usability, integrity and security") ]

/-- `JargonResolver._find_compound_terms`: case-insensitive substring match
of each fixed compound phrase. -/
def find_compound_terms (text : Str) : List (Str × Str) :=
  let text_lower := lowerL text
  compound_terms.foldl
    (fun acc p => if isSub (lowerL p.1) text_lower then dictSet acc p.1 p.2 else acc) []

/-- The dictionary scan of `JargonResolver.resolve_jargon`: for each entry of
the jargon dictionary, search the lowered text for
`r'\b' + re.escape(jargon.lower()) + r'\b'`. -/
def dictScanMatches (d : List (Str × Str)) (text_lower : Str) : List (Str × Str) :=
  d.foldl
    (fun acc p => if wb_search (lowerL p.1) text_lower then dictSet acc p.1 p.2 else acc) []

/-- `JargonResolver.resolve_jargon`.  The surrounding `try/except` in the
source can never fire (every step is total), so the model is total. -/
def resolve_jargon (st : JargonState) (text : Str) : List (Str × Str) :=
  let text_lower := lowerL text
  let resolved₁ := dictScanMatches st.jargon_dictionary text_lower
  let resolved₂ := dictUpdate resolved₁ (find_acronyms text)
  dictUpdate resolved₂ (find_compound_terms text)

/- ---------------------------------------------------------------------
`regulation_kb.py`
--------------------------------------------------------------------- -/

/-- A regulation record.  `similarity_score` is absent (`none`) on stored
records and attached (`some`) only on the per-request copies returned by
retrieval. -/
structure Regulation where
  id : Str
  name : Str
  jurisdiction : Str
  description : Str
  key_obligations : List Str
  scope : List Str
  penalties : Str
  effective_date : Str
  similarity_score : Option ℚ := none
deriving DecidableEq

/-- The state of a `RegulationKnowledgeBase`.  The TF-IDF vectorizer and the
cosine-similarity computation are abstracted into `similarity`, which maps a
query text to the row of similarity scores against the corpus vectors (one
per stored regulation when the index is consistent). -/
structure KnowledgeBase where
  regulations : List Regulation
  similarity : Str → List ℚ
  is_built : Bool

/-- The result-building loop at the end of `find_relevant_regulations`:
`self.regulations[idx].copy()` with the transient score attached; an
out-of-range index raises (caught by the surrounding `try/except`). -/
def attachScores (regs : List Regulation) : List (ℕ × ℚ) → Except Str (List Regulation)
  | [] => .ok []
  | (i, s) :: t₀ =>
    match regs.get? i with
    | none => .error (str "list index out of range")
    | some r =>
      match attachScores regs t₀ with
      | .ok l => .ok ({ r with similarity_score := some s } :: l)
      | .error e => .error e

/-- The body of the `try` block of `find_relevant_regulations`: enumerate
similarities, keep those `≥ threshold`, sort by similarity descending with
Python's stable `list.sort(key=..., reverse=True)` (modelled by insertion
sort on the non-strict key comparison, which preserves the relative order
of equal keys), truncate, and attach scores to copies. -/
def find_relevant_body (kb : KnowledgeBase) (text : Str) (threshold : ℚ)
    (max_results : ℕ) : Except Str (List Regulation) :=
  let similarities := kb.similarity text
  let relevant_indices := (pyEnum similarities).filter (fun p => decide (threshold ≤ p.2))
  let sorted_indices := relevant_indices.insertionSort (fun a b => b.2 ≤ a.2)
  let top_indices := sorted_indices.take max_results
  attachScores kb.regulations top_indices

/-- `RegulationKnowledgeBase.find_relevant_regulations`.  Returns the result
list together with the (unchanged) knowledge-base state; the `try/except`
converts any failure of the body into the empty result. -/
def find_relevant_regulations (kb : KnowledgeBase) (text : Str)
    (threshold : ℚ := 1/10) (max_results : ℕ := 5) : List Regulation × KnowledgeBase :=
  if kb.is_built = false then ([], kb)
  else
    match find_relevant_body kb text threshold max_results with
    | .ok regs => (regs, kb)
    | .error _ => ([], kb)

/- ---------------------------------------------------------------------
`compliance_analyzer.py`
--------------------------------------------------------------------- -/

/-- The structured judgement produced by `_llm_compliance_check` or
`_fallback_compliance_analysis`.  Every field the analyzer reads is present
(the fallback always produces all of them); `confidence` follows the
declared 0–100 schema but is left an unbounded natural number. -/
structure Judgement where
  requires_compliance : Bool
  reasoning : Str
  obligations : List Str
  likely_regions : List Str
  confidence : ℕ
deriving DecidableEq

/-- The result record of `ComplianceAnalyzer.analyze_feature`. -/
structure AnalysisResult where
  requires_geo_compliance : Bool
  reasoning : Str
  related_regulations : List Str
  risk_score : ℕ
  regions_affected : List Str
  evidence : Str
  jargon_resolved : List (Str × Str)
deriving DecidableEq

/-- `self.risk_weights`, in source order. -/
def risk_weights : List (Str × ℕ) :=
  [ (str "child_safety", 40),
    (str "data_privacy", 30),
    (str "content_moderation", 25),
    (str "user_verification", 20),
    (str "algorithmic_transparency", 15),
    (str "data_localization", 10),
    (str "age_verification", 35),
    (str "content_blocking", 20),
    (str "parental_controls", 30) ]

/-- `self.risk_keywords`, in source order (only these five categories carry
keyword lists in the source). -/
def risk_keywords : List (Str × List Str) :=
  [ (str "child_safety",
      [str "minor", str "child", str "youth", str "teen", str "age verification",
       str "parental", str "guardian", str "curfew"]),
    (str "data_privacy",
      [str "personal data", str "user data", str "tracking", str "profiling",
       str "analytics", str "targeting"]),
    (str "content_moderation",
      [str "harmful content", str "violence", str "hate", str "misinformation",
       str "content removal"]),
    (str "algorithmic_transparency",
      [str "recommendation", str "algorithm", str "personalization", str "feed",
       str "ranking"]),
    (str "data_localization",
      [str "data storage", str "server location", str "cross-border",
       str "data transfer"]) ]

/-- `d.get(k, dflt)` on a weight table. -/
def ngetD : List (Str × ℕ) → Str → ℕ → ℕ
  | [], _, dflt => dflt
  | (k, v) :: t₀, q, dflt => if k = q then v else ngetD t₀ q dflt

/-- `d.get(k)` on the keyword table. -/
def kget : List (Str × List Str) → Str → Option (List Str)
  | [], _ => none
  | (k, v) :: t₀, q => if k = q then some v else kget t₀ q

/-- `any(keyword.lower() in text_lower for keyword in keywords)`. -/
def keywordsMatch (kws : List Str) (text_lower : Str) : Bool :=
  kws.any (fun k => isSub (lowerL k) text_lower)

/-- `ComplianceAnalyzer._calculate_risk_score`.  `int(confidence * 0.3)` is
the exact floor `confidence * 3 / 10` for the natural-number confidence of
the model. -/
def calculate_risk_score (text : Str) (regulations : List Regulation)
    (llm_analysis : Judgement) : ℕ :=
  let text_lower := lowerL text
  let score₁ :=
    risk_keywords.foldl
      (fun s p => if keywordsMatch p.2 text_lower then s + ngetD risk_weights p.1 10 else s) 0
  let score₂ :=
    if regulations.isEmpty then score₁
    else
      let s₀ := score₁ + min (regulations.length * 15) 30
      regulations.foldl
        (fun s r =>
          let s' :=
            if ([str "child", str "minor", str "youth"]).any
                (fun k => isSub k (lowerL r.name)) then s + 20 else s
          if isSub (str "california") (lowerL r.jurisdiction) then s' + 10 else s') s₀
  let score₃ :=
    if llm_analysis.requires_compliance then
      score₂ + llm_analysis.confidence * 3 / 10
    else score₂
  min (max score₃ 0) 100

/-- `ComplianceAnalyzer._determine_compliance_flag`: collect one `True` per
active signal and require `sum(signals) >= 2`. -/
def determine_compliance_flag (llm_analysis : Judgement) (risk_score : ℕ)
    (regulations : List Regulation) : Bool :=
  let signals : List Bool := []
  let signals := if llm_analysis.requires_compliance then signals ++ [true] else signals
  let signals := if 30 ≤ risk_score then signals ++ [true] else signals
  let signals := if !regulations.isEmpty then signals ++ [true] else signals
  decide (2 ≤ (signals.map (fun b => if b then (1 : ℕ) else 0)).sum)

/-- `ComplianceAnalyzer._fallback_compliance_analysis`.  `list(set(...))`
for the likely regions is modelled as deduplication (the Python set order is
unspecified and no property depends on it). -/
def fallback_compliance_analysis (text : Str) (relevant_regulations : List Regulation) :
    Judgement :=
  let text_lower := lowerL text
  let risk_categories :=
    risk_keywords.foldl
      (fun acc p => if keywordsMatch p.2 text_lower then acc ++ [p.1] else acc) []
  let requires₁ :=
    risk_keywords.foldl
      (fun acc p => if keywordsMatch p.2 text_lower then true else acc) false
  let reasoning₁ := str "Analysis based on keyword matching and regulation database. "
  let reasoning₂ :=
    if !risk_categories.isEmpty then
      reasoning₁ ++ str "Detected risk categories: " ++
        joinSep (str ", ") risk_categories ++ str ". "
    else reasoning₁
  if !relevant_regulations.isEmpty then
    { requires_compliance := true
      reasoning := reasoning₂ ++ str "Matched against " ++
        natRepr relevant_regulations.length ++ str " relevant regulations."
      obligations :=
        (relevant_regulations.take 3).map
          (fun r => r.key_obligations.headD (str "General compliance"))
      likely_regions := (relevant_regulations.map (fun r => r.jurisdiction)).dedup
      confidence := 75 }
  else
    { requires_compliance := requires₁
      reasoning := reasoning₂ ++ str "No specific regulations matched."
      obligations := []
      likely_regions := []
      confidence := if requires₁ then 75 else 85 }

/-- `ComplianceAnalyzer._extract_affected_regions`: the sorted, deduplicated
union of the retrieved regulations' jurisdictions and the judgement's likely
regions. -/
def extract_affected_regions (regulations : List Regulation)
    (llm_analysis : Judgement) : List Str :=
  sortedStrs (((regulations.map (fun r => r.jurisdiction)) ++
    llm_analysis.likely_regions).dedup)

/-- `ComplianceAnalyzer._generate_evidence`. -/
def generate_evidence (text : Str) (regulations : List Regulation)
    (llm_analysis : Judgement) : Str :=
  let text_snippet := if 200 < text.length then text.take 200 ++ str "..." else text
  let parts₁ := [str "Feature text: " ++ text_snippet]
  let parts₂ :=
    if !regulations.isEmpty then
      let matched_keywords :=
        (risk_keywords.filter
          (fun p => p.2.any (fun kw => isSub kw (lowerL text)))).map Prod.fst
      let reg_matches :=
        (regulations.take 3).map
          (fun r => r.name ++ str " (matched keywords: " ++
            joinSep (str ", ") matched_keywords ++ str ")")
      parts₁ ++ [str "Matched regulations: " ++ joinSep (str ", ") reg_matches]
    else parts₁
  let parts₃ := parts₂ ++ [str "Analysis confidence: " ++ natRepr llm_analysis.confidence ++ str "%"]
  joinSep (str " | ") parts₃

/-- One case-insensitive `re.sub` of the literal `jargon` by `rep`
(left-to-right, non-overlapping), as used by `_apply_jargon_resolution`. -/
def subIC (jargon rep : Str) : Str → Str
  | [] => []
  | c :: t₀ =>
    if 0 < jargon.length ∧ isPre (lowerL jargon) (lowerL (c :: t₀)) = true then
      rep ++ subIC jargon rep ((c :: t₀).drop jargon.length)
    else c :: subIC jargon rep t₀
termination_by t => t.length
decreasing_by
  · simp only [List.length_drop, List.length_cons]
    omega
  · simp

/-- `ComplianceAnalyzer._apply_jargon_resolution`: for each resolved entry,
replace every occurrence of the jargon by `"<jargon> (<meaning>)"`. -/
def apply_jargon_resolution (text : Str) (jargon_map : List (Str × Str)) : Str :=
  jargon_map.foldl
    (fun t₀ p => subIC p.1 (p.1 ++ str " (" ++ p.2 ++ str ")") t₀) text

/-- The three collaborator calls that `analyze_feature` makes, each of which
may raise in Python: `self.jargon_resolver.resolve_jargon`,
`self.kb.find_relevant_regulations`, and `self._llm_compliance_check`.  An
`Analyzer` value fixes their behavior; the pure internal helpers are the
definitions above. -/
structure Analyzer where
  resolve_jargon_step : Str → Except Str (List (Str × Str))
  find_regulations_step : Str → Except Str (List Regulation)
  llm_check_step : Str → List Regulation → Except Str Judgement

/-- The body of the `try` block of `ComplianceAnalyzer.analyze_feature`. -/
def analyze_feature_body (a : Analyzer) (title description prd trd : Str) :
    Except Str AnalysisResult := do
  let full_text := pyStrip (title ++ str " " ++ description ++ str " " ++ prd ++ str " " ++ trd)
  let jargon_resolved ← a.resolve_jargon_step full_text
  let resolved_text := apply_jargon_resolution full_text jargon_resolved
  let relevant_regulations ← a.find_regulations_step resolved_text
  let llm_analysis ← a.llm_check_step resolved_text relevant_regulations
  let risk_score := calculate_risk_score resolved_text relevant_regulations llm_analysis
  let requires_compliance := determine_compliance_flag llm_analysis risk_score relevant_regulations
  let regions_affected := extract_affected_regions relevant_regulations llm_analysis
  let regulation_names := relevant_regulations.map (fun r => r.name)
  let evidence := generate_evidence resolved_text relevant_regulations llm_analysis
  let reasoning := llm_analysis.reasoning
  pure { requires_geo_compliance := requires_compliance
         reasoning := reasoning
         related_regulations := regulation_names
         risk_score := risk_score
         regions_affected := regions_affected
         evidence := evidence
         jargon_resolved := jargon_resolved }

/-- `ComplianceAnalyzer.analyze_feature`: the fail-open `except` boundary. -/
def analyze_feature (a : Analyzer) (title description : Str)
    (prd : Str := []) (trd : Str := []) : AnalysisResult :=
  match analyze_feature_body a title description prd trd with
  | .ok result => result
  | .error e =>
    { requires_geo_compliance := false
      reasoning := str "Analysis failed: " ++ e ++ str ". Defaulting to no compliance required."
      related_regulations := []
      risk_score := 0
      regions_affected := []
      evidence := str "Error in analysis pipeline"
      jargon_resolved := [] }

/- ---------------------------------------------------------------------
Specification-side definitions (stated from the spec's words, to be
compared with the code-side definitions above).
--------------------------------------------------------------------- -/

/-- Number of true signals among three booleans (spec §4.5). -/
def countTrue (a b c : Bool) : ℕ :=
  (if a then 1 else 0) + (if b then 1 else 0) + (if c then 1 else 0)

/-- Spec-side risk score (claim C3): the clamp to `[0,100]` of the sum of
the configured weight of every risk-keyword category whose keywords appear
case-insensitively in the text, plus `min(15·|regs|, 30)`, plus 20 per
regulation whose name contains "child"/"minor"/"youth", plus 10 per
regulation whose jurisdiction contains "california", plus
`floor(0.3·confidence)` exactly when the judgement requires compliance.
The nine weighted categories are enumerated; a category carries the keyword
list the source assigns it (none for the four categories absent from
`risk_keywords`). -/
def spec_risk_score (text : Str) (regulations : List Regulation)
    (llm_analysis : Judgement) : ℕ :=
  let keywordPart :=
    (risk_weights.map
      (fun p => if keywordsMatch ((kget risk_keywords p.1).getD []) (lowerL text)
        then p.2 else 0)).sum
  let countPart := min (15 * regulations.length) 30
  let childPart :=
    20 * (regulations.countP
      (fun r => ([str "child", str "minor", str "youth"]).any
        (fun k => isSub k (lowerL r.name))))
  let californiaPart :=
    10 * (regulations.countP
      (fun r => isSub (str "california") (lowerL r.jurisdiction)))
  let confidencePart :=
    if llm_analysis.requires_compliance then llm_analysis.confidence * 3 / 10 else 0
  min (keywordPart + countPart + childPart + californiaPart + confidencePart) 100

/-- Ranking order of claim C5: descending similarity, ties broken by the
original corpus insertion order (the enumeration index). -/
def rankLex (a b : ℕ × ℚ) : Prop := b.2 < a.2 ∨ (a.2 = b.2 ∧ a.1 ≤ b.1)

instance : DecidableRel rankLex := fun a b => by
  unfold rankLex
  infer_instance

/-- Spec-side retrieval (claim C5): exactly the regulations whose similarity
to the query is at least the threshold, sorted descending with ties broken
by corpus insertion order, truncated to `max_results`, each carrying its
similarity score. -/
def spec_retrieve (kb : KnowledgeBase) (text : Str) (threshold : ℚ)
    (max_results : ℕ) : List Regulation :=
  let kept := (pyEnum (kb.similarity text)).filter (fun p => decide (threshold ≤ p.2))
  let ranked := kept.insertionSort rankLex
  (ranked.take max_results).filterMap
    (fun p => (kb.regulations.get? p.1).map
      (fun r => { r with similarity_score := some p.2 }))

/-- Spec-side word-boundary occurrence (claim C7): the term occurs as a
contiguous substring whose two ends are `\b` boundaries, i.e. positions
where word-character-ness changes (string edges count as non-word). -/
def occursWB (term text : Str) : Prop :=
  term ≠ [] ∧ ∃ pre post, text = pre ++ term ++ post ∧
    optWord (lastO pre) ≠ optWord term.head? ∧
    optWord (lastO term) ≠ optWord post.head?

/- ---------------------------------------------------------------------
Concrete fixtures used by witness statements.
--------------------------------------------------------------------- -/

/-- A sample regulation record. -/
def regA : Regulation :=
  { id := str "eu_dsa_2022"
    name := str "EU Digital Services Act (DSA)"
    jurisdiction := str "European Union"
    description := str "Regulation on digital services and content moderation"
    key_obligations := [str "Risk assessment for systemic risks"]
    scope := [str "content moderation"]
    penalties := str "Up to 6% of global annual turnover"
    effective_date := str "2024-02-17" }

/-- A second sample regulation record. -/
def regB : Regulation :=
  { id := str "ut_social_media_2023"
    name := str "Utah Social Media Regulation Act"
    jurisdiction := str "Utah, US"
    description := str "Age verification and parental consent for minors"
    key_obligations := [str "Age verification for users under 18"]
    scope := [str "age verification"]
    penalties := str "Civil penalties up to 5000 per violation"
    effective_date := str "2024-03-01" }

/-- A built two-record knowledge base whose similarity row ties both
records (exercising the tie-break). -/
def kbBuilt : KnowledgeBase :=
  { regulations := [regA, regB]
    similarity := fun _ => [1/2, 1/2]
    is_built := true }

/-- A knowledge base whose index was never built. -/
def kbUnbuilt : KnowledgeBase :=
  { regulations := [regA]
    similarity := fun _ => [1]
    is_built := false }

/-- An analyzer whose jargon-resolution stage raises. -/
def failingAnalyzer : Analyzer :=
  { resolve_jargon_step := fun _ => .error (str "knowledge base offline")
    find_regulations_step := fun _ => .ok []
    llm_check_step := fun _ _ => .ok
      { requires_compliance := false
        reasoning := str "n/a"
        obligations := []
        likely_regions := []
        confidence := 50 } }

/- =====================================================================
Theorems.
===================================================================== -/

/-- `isPre` decides prefixhood. -/
theorem isPre_iff (n h : Str) : isPre n h = true ↔ ∃ post, h = n ++ post := by
  induction n generalizing h with
  | nil => simp [isPre]
  | cons a n ih =>
    cases h with
    | nil => simp [isPre]
    | cons b h' =>
      by_cases hab : a = b
      · subst hab
        simp [isPre, ih]
      · simp only [isPre, if_neg hab, List.cons_append, List.cons.injEq]
        constructor
        · intro h; cases h
        · rintro ⟨post, hb, -⟩; exact absurd hb.symm hab

/-- `isSub` decides contiguous-substring occurrence (Python `in`). -/
theorem isSub_iff (n h : Str) : isSub n h = true ↔ ∃ pre post, h = pre ++ n ++ post := by
  induction h with
  | nil =>
    simp only [isSub, List.isEmpty_iff]
    constructor
    · rintro rfl; exact ⟨[], [], rfl⟩
    · rintro ⟨pre, post, hp⟩
      rcases List.append_eq_nil.mp hp.symm with ⟨h1, h2⟩
      rcases List.append_eq_nil.mp h1 with ⟨-, h3⟩
      exact h3
  | cons c t ih =>
    simp only [isSub, Bool.or_eq_true, isPre_iff, ih]
    constructor
    · rintro (⟨post, hp⟩ | ⟨pre, post, hp⟩)
      · exact ⟨[], post, by simpa using hp⟩
      · exact ⟨c :: pre, post, by simp [hp]⟩
    · rintro ⟨pre, post, hp⟩
      cases pre with
      | nil => exact Or.inl ⟨post, by simpa using hp⟩
      | cons c' pre' =>
        right
        simp only [List.cons_append, List.cons.injEq] at hp
        exact ⟨pre', post, hp.2⟩

/-- `lastO` of a cons. -/
theorem lastO_cons (c : Char) (l : Str) : lastO (c :: l) = (lastO l).or (some c) := by
  induction l generalizing c with
  | nil => rfl
  | cons d t ih =>
    have h : lastO (d :: t) = (lastO t).or (some d) := ih d
    calc lastO (c :: d :: t) = lastO (d :: t) := rfl
      _ = (lastO t).or (some d) := h
      _ = ((lastO t).or (some d)).or (some c) := by cases lastO t <;> rfl
      _ = (lastO (d :: t)).or (some c) := by rw [h]

/-- An `Option.or` with a `some` right operand absorbs further alternatives. -/
theorem or_some_or (x : Option Char) (c : Char) (y : Option Char) :
    (x.or (some c)).or y = x.or (some c) := by
  cases x <;> rfl

/-- Characterization of a single anchored match attempt. -/
theorem wb_match_at_iff (term : Str) (prev : Option Char) (s : Str) :
    wb_match_at term prev s = true ↔
      (term ≠ [] ∧ ∃ post, s = term ++ post ∧
        optWord prev ≠ optWord term.head? ∧
        optWord (lastO term) ≠ optWord post.head?) := by
  unfold wb_match_at
  simp only [Bool.and_eq_true, Bool.not_eq_true', List.isEmpty_eq_false_iff_exists_mem,
    bne_iff_ne, isPre_iff]
  constructor
  · rintro ⟨⟨⟨hne, post, rfl⟩, h1⟩, h2⟩
    rw [List.drop_left] at h2
    exact ⟨by rintro rfl; simp at hne, post, rfl, h1, h2⟩
  · rintro ⟨hne, post, rfl, h1, h2⟩
    refine ⟨⟨⟨?_, post, rfl⟩, h1⟩, ?_⟩
    · cases term with
      | nil => exact absurd rfl hne
      | cons a t => exact ⟨a, List.mem_cons_self a t⟩
    · rw [List.drop_left]; exact h2

/-- Characterization of the scan `wb_search_from`: a match exists somewhere
in `s`, where the character preceding a decomposition with empty prefix is
`prev`. -/
theorem wb_search_from_iff (term : Str) (prev : Option Char) (s : Str) :
    wb_search_from term prev s = true ↔
      (term ≠ [] ∧ ∃ pre post, s = pre ++ term ++ post ∧
        optWord ((lastO pre).or prev) ≠ optWord term.head? ∧
        optWord (lastO term) ≠ optWord post.head?) := by
  induction s generalizing prev with
  | nil =>
    rw [wb_search_from, wb_match_at_iff]
    constructor
    · rintro ⟨hne, post, hp, h1, h2⟩
      exact ⟨hne, [], post, by simpa using hp, by simpa using h1, h2⟩
    · rintro ⟨hne, pre, post, hp, h1, h2⟩
      rcases List.append_eq_nil.mp hp.symm with ⟨h3, h4⟩
      rcases List.append_eq_nil.mp h3 with ⟨rfl, rfl⟩
      exact ⟨hne, post, by simpa using hp, by simpa using h1, h2⟩
  | cons c t ih =>
    rw [wb_search_from, Bool.or_eq_true, wb_match_at_iff, ih]
    constructor
    · rintro (⟨hne, post, hp, h1, h2⟩ | ⟨hne, pre, post, hp, h1, h2⟩)
      · exact ⟨hne, [], post, by simpa using hp, by simpa [lastO] using h1, h2⟩
      · refine ⟨hne, c :: pre, post, by simp [hp], ?_, h2⟩
        rw [lastO_cons, or_some_or]
        exact h1
    · rintro ⟨hne, pre, post, hp, h1, h2⟩
      cases pre with
      | nil => exact Or.inl ⟨hne, post, by simpa using hp, by simpa [lastO] using h1, h2⟩
      | cons c' pre' =>
        simp only [List.cons_append, List.cons.injEq] at hp
        obtain ⟨rfl, ht⟩ := hp
        rw [lastO_cons, or_some_or] at h1
        exact Or.inr ⟨hne, pre', post, ht, h1, h2⟩

/-- `wb_search` decides the spec-side word-boundary occurrence. -/
theorem wb_search_iff (term s : Str) :
    wb_search term s = true ↔ occursWB term s := by
  rw [wb_search, wb_search_from_iff, occursWB]
  constructor
  · rintro ⟨hne, pre, post, hp, h1, h2⟩
    exact ⟨hne, pre, post, hp, by simpa using h1, h2⟩
  · rintro ⟨hne, pre, post, hp, h1, h2⟩
    exact ⟨hne, pre, post, hp, by simpa using h1, h2⟩

/-- Unfolding lemma for `dget` on a cons cell. -/
theorem dget_cons (k v q : Str) (t : List (Str × Str)) :
    dget ((k, v) :: t) q = if k = q then some v else dget t q := rfl

/-- The membership test used by `dictSet` is membership of the key list. -/
theorem any_key_iff (d : List (Str × Str)) (k : Str) :
    (d.any (fun p => decide (p.1 = k))) = true ↔ k ∈ dkeys d := by
  rw [List.any_eq_true]
  unfold dkeys
  constructor
  · rintro ⟨p, hp, hdec⟩
    exact (by simpa using hdec : p.1 = k) ▸ List.mem_map_of_mem Prod.fst hp
  · intro hk
    rcases List.mem_map.mp hk with ⟨p, hp, hpe⟩
    exact ⟨p, hp, by simpa using hpe⟩

/-- Lookup distributes over append. -/
theorem dget_append (a b : List (Str × Str)) (q : Str) :
    dget (a ++ b) q = (dget a q).or (dget b q) := by
  induction a with
  | nil => simp [dget]
  | cons p t ih =>
    obtain ⟨k, v⟩ := p
    by_cases h : k = q
    · simp [dget, h]
    · simp [dget, h, ih]

/-- Replacement of a key the lookup does not target is invisible. -/
theorem dget_map_replace_ne (d : List (Str × Str)) (k v q : Str) (hq : k ≠ q) :
    dget (d.map (fun p => if p.1 = k then (k, v) else p)) q = dget d q := by
  induction d with
  | nil => rfl
  | cons p t ih =>
    obtain ⟨k₁, v₁⟩ := p
    rw [List.map_cons]
    by_cases h₁ : k₁ = k
    · rw [if_pos h₁, dget_cons, dget_cons, if_neg hq, if_neg (h₁ ▸ hq), ih]
    · rw [if_neg h₁, dget_cons, dget_cons]
      by_cases h₂ : k₁ = q
      · rw [if_pos h₂, if_pos h₂]
      · rw [if_neg h₂, if_neg h₂, ih]

/-- Replacing a present key makes its lookup return the new value. -/
theorem dget_map_replace_eq (d : List (Str × Str)) (k v : Str) (hk : k ∈ dkeys d) :
    dget (d.map (fun p => if p.1 = k then (k, v) else p)) k = some v := by
  induction d with
  | nil => simp [dkeys] at hk
  | cons p t ih =>
    obtain ⟨k₁, v₁⟩ := p
    rw [List.map_cons]
    by_cases h₁ : k₁ = k
    · rw [if_pos h₁, dget_cons, if_pos rfl]
    · have hk' : k ∈ dkeys t := by
        simp [dkeys] at hk ⊢
        rcases hk with h | h
        · exact absurd h.symm h₁
        · exact h
      rw [if_neg h₁, dget_cons, if_neg h₁, ih hk']

/-- A key that is absent looks up to `none`. -/
theorem dget_eq_none (d : List (Str × Str)) (q : Str) (h : q ∉ dkeys d) :
    dget d q = none := by
  induction d with
  | nil => rfl
  | cons p t ih =>
    obtain ⟨k₁, v₁⟩ := p
    have h₁ : k₁ ≠ q := by
      intro hc; exact h (by simp [dkeys, hc])
    simp only [dget, if_neg h₁]
    exact ih (fun hc => h (by simp [dkeys] at hc ⊢; exact Or.inr hc))

/-- Looking a key up in the result of `dictSet`. -/
theorem dget_dictSet (d : List (Str × Str)) (k v q : Str) :
    dget (dictSet d k v) q = if k = q then some v else dget d q := by
  unfold dictSet
  by_cases hmem : k ∈ dkeys d
  · rw [if_pos ((any_key_iff d k).mpr hmem)]
    by_cases hq : k = q
    · subst hq
      rw [if_pos rfl]
      exact dget_map_replace_eq d k v hmem
    · rw [if_neg hq]
      exact dget_map_replace_ne d k v q hq
  · rw [if_neg (fun hc => hmem ((any_key_iff d k).mp hc)), dget_append]
    by_cases hq : k = q
    · subst hq
      rw [if_pos rfl, dget_eq_none d k hmem]
      simp [dget]
    · rw [if_neg hq]
      simp [dget, hq]

/-- `dictSet` leaves the key sequence unchanged when the key is present and
appends it otherwise. -/
theorem dkeys_dictSet (d : List (Str × Str)) (k v : Str) :
    dkeys (dictSet d k v) = if k ∈ dkeys d then dkeys d else dkeys d ++ [k] := by
  unfold dictSet
  by_cases h : k ∈ dkeys d
  · rw [if_pos ((any_key_iff d k).mpr h), if_pos h]
    unfold dkeys
    rw [List.map_map]
    apply List.map_congr_left
    intro p _
    by_cases hp : p.1 = k
    · simp [hp]
    · simp [hp]
  · rw [if_neg (fun hc => h ((any_key_iff d k).mp hc)), if_neg h]
    simp [dkeys]

/-- `dictSet` preserves key uniqueness. -/
theorem nodup_dkeys_dictSet (d : List (Str × Str)) (k v : Str)
    (h : (dkeys d).Nodup) : (dkeys (dictSet d k v)).Nodup := by
  rw [dkeys_dictSet]
  by_cases hk : k ∈ dkeys d
  · rwa [if_pos hk]
  · rw [if_neg hk]
    simp [List.nodup_append, h, hk]

/-- Python `d.update(other)` looks the `other` binding up first when the
keys of `other` are unique. -/
theorem dget_dictUpdate (d other : List (Str × Str)) (q : Str)
    (h : (dkeys other).Nodup) :
    dget (dictUpdate d other) q = (dget other q).or (dget d q) := by
  induction other generalizing d with
  | nil => simp [dictUpdate, dget]
  | cons p t ih =>
    obtain ⟨k₁, v₁⟩ := p
    have hk₁ : k₁ ∉ dkeys t := by
      have h' := h
      rw [show dkeys ((k₁, v₁) :: t) = k₁ :: dkeys t from rfl, List.nodup_cons] at h'
      exact h'.1
    have hnd : (dkeys t).Nodup := by
      have h' := h
      rw [show dkeys ((k₁, v₁) :: t) = k₁ :: dkeys t from rfl, List.nodup_cons] at h'
      exact h'.2
    have step : dictUpdate d ((k₁, v₁) :: t) = dictUpdate (dictSet d k₁ v₁) t := rfl
    rw [step, ih _ hnd, dget_dictSet]
    by_cases hq : k₁ = q
    · subst hq
      rw [dget_eq_none t k₁ hk₁]
      simp [dget]
    · simp [dget, hq]

/-- Membership in the key set of a dict-scan fold: a key is produced exactly
when it carries some binding in the scanned table and its condition holds
(the condition of every scan in `resolve_jargon` depends only on the key). -/
theorem mem_dkeys_cond_fold (l : List (Str × Str)) (C : Str → Bool)
    (acc : List (Str × Str)) (q : Str) :
    (q ∈ dkeys (l.foldl (fun acc p => if C p.1 then dictSet acc p.1 p.2 else acc) acc) ↔
      q ∈ dkeys acc ∨ ((∃ m, (q, m) ∈ l) ∧ C q = true)) := by
  induction l generalizing acc with
  | nil => simp
  | cons p t ih =>
    obtain ⟨k, v⟩ := p
    rw [List.foldl_cons]
    by_cases hC : C k = true
    · rw [if_pos hC, ih]
      have hmem : q ∈ dkeys (dictSet acc k v) ↔ q ∈ dkeys acc ∨ q = k := by
        rw [dkeys_dictSet]
        by_cases h : k ∈ dkeys acc
        · rw [if_pos h]
          constructor
          · exact Or.inl
          · rintro (h' | rfl)
            · exact h'
            · exact h
        · rw [if_neg h]
          simp
      rw [hmem]
      constructor
      · rintro ((hacc | rfl) | ⟨⟨m, hm⟩, hCq⟩)
        · exact Or.inl hacc
        · exact Or.inr ⟨⟨v, List.mem_cons_self _ _⟩, hC⟩
        · exact Or.inr ⟨⟨m, List.mem_cons_of_mem _ hm⟩, hCq⟩
      · rintro (hacc | ⟨⟨m, hm⟩, hCq⟩)
        · exact Or.inl (Or.inl hacc)
        · rcases List.mem_cons.mp hm with heq | hm'
          · exact Or.inl (Or.inr (congrArg Prod.fst heq))
          · exact Or.inr ⟨⟨m, hm'⟩, hCq⟩
    · rw [if_neg hC, ih]
      constructor
      · rintro (hacc | ⟨⟨m, hm⟩, hCq⟩)
        · exact Or.inl hacc
        · exact Or.inr ⟨⟨m, List.mem_cons_of_mem _ hm⟩, hCq⟩
      · rintro (hacc | ⟨⟨m, hm⟩, hCq⟩)
        · exact Or.inl hacc
        · rcases List.mem_cons.mp hm with heq | hm'
          · have hqk : q = k := congrArg Prod.fst heq
            exact absurd (hqk ▸ hCq) hC
          · exact Or.inr ⟨⟨m, hm'⟩, hCq⟩

/-- A dict-scan fold preserves key uniqueness. -/
theorem nodup_dkeys_cond_fold (l : List (Str × Str)) (C : Str → Bool)
    (acc : List (Str × Str)) (h : (dkeys acc).Nodup) :
    (dkeys (l.foldl (fun acc p => if C p.1 then dictSet acc p.1 p.2 else acc) acc)).Nodup := by
  induction l generalizing acc with
  | nil => exact h
  | cons p t ih =>
    rw [List.foldl_cons]
    by_cases hC : C p.1 = true
    · rw [if_pos hC]
      exact ih _ (nodup_dkeys_dictSet _ _ _ h)
    · rw [if_neg hC]
      exact ih _ h

/-- The acronym fold preserves key uniqueness. -/
theorem nodup_dkeys_acro_fold (ms : List Str) (acc : List (Str × Str))
    (h : (dkeys acc).Nodup) :
    (dkeys (ms.foldl
      (fun acc m =>
        match dget acronym_map m with
        | some v => dictSet acc m v
        | none => acc) acc)).Nodup := by
  induction ms generalizing acc with
  | nil => exact h
  | cons m t ih =>
    rw [List.foldl_cons]
    cases hdg : dget acronym_map m with
    | none => simpa [hdg] using ih _ h
    | some v => simpa [hdg] using ih _ (nodup_dkeys_dictSet _ _ _ h)

/-- `find_compound_terms` produces unique keys. -/
theorem nodup_dkeys_find_compound_terms (text : Str) :
    (dkeys (find_compound_terms text)).Nodup := by
  unfold find_compound_terms
  exact nodup_dkeys_cond_fold compound_terms
    (fun s => isSub (lowerL s) (lowerL text)) [] (by simp [dkeys])

/-- `find_acronyms` produces unique keys. -/
theorem nodup_dkeys_find_acronyms (text : Str) :
    (dkeys (find_acronyms text)).Nodup := by
  unfold find_acronyms
  exact nodup_dkeys_acro_fold _ [] (by simp [dkeys])

set_option maxRecDepth 8000

/-- C7.  The dictionary scan of `resolve_jargon` includes a term exactly
when the term has a binding in the dictionary and its lowercased form
occurs in the lowercased text at word boundaries; in particular, with the
seed term "minor user", the input "minority users" does not trigger it,
while the input "minor user" (containing the literal phrase) does. -/
theorem resolve_jargon_word_boundary :
    (∀ (d : List (Str × Str)) (text term : Str),
        (term ∈ dkeys (dictScanMatches d (lowerL text)) ↔
          (∃ m, (term, m) ∈ d) ∧ occursWB (lowerL term) (lowerL text)))
    ∧ str "minor user" ∉ dkeys (dictScanMatches build_jargon_dictionary (lowerL (str "minority users")))
    ∧ str "minor user" ∈ dkeys (dictScanMatches build_jargon_dictionary (lowerL (str "minor user"))) := by
  refine ⟨?_, by decide, by decide⟩
  intro d text term
  unfold dictScanMatches
  rw [mem_dkeys_cond_fold d (fun s => wb_search (lowerL s) (lowerL text)) [] term]
  rw [wb_search_iff]
  simp [dkeys]

/-- C9 (counterexample).  After `add_custom_jargon("data pipeline", ...)`,
the dictionary scan and the compound-phrase scan both produce the key
"data pipeline" on a text containing that phrase, and the merged map holds
the compound-phrase definition — the later match overwrote the earlier one,
so "later matches do not overwrite earlier ones" is false. -/
theorem resolve_jargon_collision_counterexample :
    dget (resolve_jargon
        (add_custom_jargon jargonInit (str "data pipeline") (str "custom feature store"))
        (str "our data pipeline design"))
      (str "data pipeline")
      = some (str "series of processes for moving and transforming data")
    ∧ dget (dictScanMatches
          (add_custom_jargon jargonInit (str "data pipeline")
            (str "custom feature store")).jargon_dictionary
          (lowerL (str "our data pipeline design")))
        (str "data pipeline")
      = some (str "custom feature store")
    ∧ str "series of processes for moving and transforming data"
        ≠ str "custom feature store" := by
  refine ⟨by decide, by decide, by decide⟩

/-- C9 (amended).  The three scans of `resolve_jargon` merge with
later-scan-wins semantics: a key's definition comes from the
compound-phrase scan if that scan produced it, else from the acronym scan,
else from the dictionary scan. -/
theorem resolve_jargon_later_wins (st : JargonState) (text q : Str) :
    dget (resolve_jargon st text) q =
      ((dget (find_compound_terms text) q).or
        ((dget (find_acronyms text) q).or
          (dget (dictScanMatches st.jargon_dictionary (lowerL text)) q))) := by
  unfold resolve_jargon
  rw [dget_dictUpdate _ _ _ (nodup_dkeys_find_compound_terms text),
    dget_dictUpdate _ _ _ (nodup_dkeys_find_acronyms text)]

/-- C1.  Whenever any stage of the `analyze_feature` pipeline raises (the
pipeline body evaluates to an error with message `m`), the call returns the
fail-open default record: no compliance required, risk score 0, empty
lists, evidence noting the failure, and reasoning
"Analysis failed: `m`. Defaulting to no compliance required."; the
exception is never propagated. -/
theorem analyze_feature_fail_open (a : Analyzer) (title description prd trd m : Str)
    (h : analyze_feature_body a title description prd trd = .error m) :
    analyze_feature a title description prd trd =
      { requires_geo_compliance := false
        reasoning := str "Analysis failed: " ++ m ++ str ". Defaulting to no compliance required."
        related_regulations := []
        risk_score := 0
        regions_affected := []
        evidence := str "Error in analysis pipeline"
        jargon_resolved := [] } := by
  unfold analyze_feature
  rw [h]

/-- Witness for C1: a concrete analyzer whose jargon stage raises. -/
theorem analyze_feature_fail_open_witness :
    analyze_feature failingAnalyzer (str "Curfew") (str "login blocker") =
      { requires_geo_compliance := false
        reasoning := str "Analysis failed: " ++ str "knowledge base offline" ++
          str ". Defaulting to no compliance required."
        related_regulations := []
        risk_score := 0
        regions_affected := []
        evidence := str "Error in analysis pipeline"
        jargon_resolved := [] } :=
  analyze_feature_fail_open failingAnalyzer (str "Curfew") (str "login blocker") [] []
    (str "knowledge base offline") rfl

/-- C2.  `_determine_compliance_flag` is the two-of-three majority vote of
the three signals (judgement requires compliance, risk score at least 30,
at least one regulation retrieved), and the majority count is independent
of the order of the signals. -/
theorem determine_compliance_flag_majority :
    (∀ (llm : Judgement) (risk : ℕ) (regs : List Regulation),
        (determine_compliance_flag llm risk regs = true ↔
          2 ≤ countTrue llm.requires_compliance (decide (30 ≤ risk)) (!regs.isEmpty)))
    ∧ (∀ a b c : Bool,
        (2 ≤ countTrue a b c ↔ 2 ≤ countTrue b a c)
        ∧ (2 ≤ countTrue a b c ↔ 2 ≤ countTrue a c b)) := by
  constructor
  · intro llm risk regs
    unfold determine_compliance_flag countTrue
    by_cases h30 : 30 ≤ risk <;>
      cases hrc : llm.requires_compliance <;>
        cases hre : regs.isEmpty <;>
          simp [h30, hre]
  · decide

/-- C4.  For every text, regulation list and judgement (any confidence
value), the risk score lies in `[0, 100]`. -/
theorem calculate_risk_score_bounds (text : Str) (regs : List Regulation)
    (llm : Judgement) :
    0 ≤ calculate_risk_score text regs llm ∧ calculate_risk_score text regs llm ≤ 100 :=
  ⟨Nat.zero_le _, Nat.min_le_right _ _⟩

/-- A fold that latches to `true` when any element satisfies the condition. -/
theorem foldl_setTrue {α : Type} (l : List α) (C : α → Bool) (b : Bool) :
    l.foldl (fun acc x => if C x then true else acc) b = (b || l.any C) := by
  induction l generalizing b with
  | nil => simp
  | cons x t ih =>
    rw [List.foldl_cons]
    cases hC : C x
    · rw [if_neg (by simp), ih, List.any_cons, hC]
      simp
    · rw [if_pos rfl, ih, List.any_cons, hC]
      simp

/-- The keyword-detection loop of the fallback reasoner fires exactly when
some risk-category keyword occurs (case-insensitively) in the text. -/
theorem fallback_requires_iff (text : Str) :
    (risk_keywords.foldl
        (fun acc p => if keywordsMatch p.2 (lowerL text) then true else acc) false) = true ↔
      ∃ p ∈ risk_keywords, ∃ k ∈ p.2, ∃ pre post, lowerL text = pre ++ lowerL k ++ post := by
  rw [foldl_setTrue risk_keywords (fun p => keywordsMatch p.2 (lowerL text)) false]
  simp [keywordsMatch, List.any_eq_true, isSub_iff]

/-- C6.  The deterministic fallback reasoner flags compliance exactly when
some risk-category keyword occurs case-insensitively in the text or at
least one regulation was retrieved, and its confidence is 75 when flagged
and 85 otherwise. -/
theorem fallback_compliance_analysis_spec (text : Str) (regs : List Regulation) :
    ((fallback_compliance_analysis text regs).requires_compliance = true ↔
      ((∃ p ∈ risk_keywords, ∃ k ∈ p.2, ∃ pre post,
          lowerL text = pre ++ lowerL k ++ post) ∨ regs ≠ []))
    ∧ (fallback_compliance_analysis text regs).confidence =
        (if (fallback_compliance_analysis text regs).requires_compliance then 75 else 85) := by
  unfold fallback_compliance_analysis
  cases hre : regs.isEmpty with
  | true =>
    have hnil : regs = [] := List.isEmpty_iff.mp hre
    simp only [hre, Bool.not_true, Bool.false_eq_true, if_false]
    refine ⟨?_, trivial⟩
    rw [fallback_requires_iff]
    simp [hnil]
  | false =>
    have hne : regs ≠ [] := by
      intro h
      rw [h] at hre
      simp at hre
    simp only [hre, Bool.not_false, if_true]
    exact ⟨by simp [hne], trivial⟩

/-- An accumulating fold of conditional weights is the sum of the selected
weights. -/
theorem foldl_add_ite {α : Type} (l : List α) (C : α → Bool) (w : α → ℕ) (a : ℕ) :
    l.foldl (fun s x => if C x then s + w x else s) a
      = a + (l.map (fun x => if C x then w x else 0)).sum := by
  induction l generalizing a with
  | nil => simp
  | cons x t ih =>
    rw [List.foldl_cons, List.map_cons, List.sum_cons]
    cases hC : C x
    · rw [if_neg (by simp), if_neg (by simp), ih]
      omega
    · rw [if_pos rfl, if_pos rfl, ih]
      omega

/-- The per-regulation bonus loop adds 20 per match of `A` and 10 per match
of `B`. -/
theorem foldl_two_bonus (l : List Regulation) (A B : Regulation → Bool) (a : ℕ) :
    l.foldl (fun s r =>
        if B r then (if A r then s + 20 else s) + 10 else (if A r then s + 20 else s)) a
      = a + 20 * l.countP A + 10 * l.countP B := by
  induction l generalizing a with
  | nil => simp
  | cons r t ih =>
    rw [List.foldl_cons, List.countP_cons, List.countP_cons]
    cases hA : A r <;> cases hB : B r <;> simp [ih] <;> omega

/-- The keyword-weight loop over the five keyword-bearing categories equals
the spec-side sum over all nine weighted categories (the four categories
without keyword lists contribute nothing). -/
theorem kw_sum_eq (tl : Str) :
    (risk_keywords.map (fun p => if keywordsMatch p.2 tl then ngetD risk_weights p.1 10 else 0)).sum
      = (risk_weights.map
          (fun p => if keywordsMatch ((kget risk_keywords p.1).getD []) tl then p.2 else 0)).sum := by
  have h : ∀ b1 b2 b3 b4 b5 : Bool,
      ((if b1 then (40:ℕ) else 0) + ((if b2 then 30 else 0) + ((if b3 then 25 else 0) +
        ((if b4 then 15 else 0) + ((if b5 then 10 else 0) + 0)))))
      = ((if b1 then 40 else 0) + ((if b2 then 30 else 0) + ((if b3 then 25 else 0) +
        (0 + ((if b4 then 15 else 0) + ((if b5 then 10 else 0) +
          (0 + (0 + (0 + 0))))))))) := by decide
  exact h
    (keywordsMatch [str "minor", str "child", str "youth", str "teen", str "age verification",
      str "parental", str "guardian", str "curfew"] tl)
    (keywordsMatch [str "personal data", str "user data", str "tracking", str "profiling",
      str "analytics", str "targeting"] tl)
    (keywordsMatch [str "harmful content", str "violence", str "hate", str "misinformation",
      str "content removal"] tl)
    (keywordsMatch [str "recommendation", str "algorithm", str "personalization", str "feed",
      str "ranking"] tl)
    (keywordsMatch [str "data storage", str "server location", str "cross-border",
      str "data transfer"] tl)

/-- C3.  `_calculate_risk_score` computes exactly the spec-side additive
formula: clamped sum of the matched category weights, the capped
regulation-count bonus, 20 per child/minor/youth regulation, 10 per
California regulation, and the floored confidence bonus when the judgement
requires compliance. -/
theorem calculate_risk_score_spec (text : Str) (regs : List Regulation) (llm : Judgement) :
    calculate_risk_score text regs llm = spec_risk_score text regs llm := by
  simp only [calculate_risk_score, spec_risk_score]
  rw [foldl_add_ite risk_keywords (fun p => keywordsMatch p.2 (lowerL text))
      (fun p => ngetD risk_weights p.1 10) 0, Nat.zero_add, kw_sum_eq]
  cases hre : regs.isEmpty with
  | true =>
    have hnil := List.isEmpty_iff.mp hre
    subst hnil
    cases hrc : llm.requires_compliance <;> simp
  | false =>
    rw [if_neg (show ¬(false = true) from by simp)]
    rw [foldl_two_bonus regs
      (fun r => ([str "child", str "minor", str "youth"]).any (fun k => isSub k (lowerL r.name)))
      (fun r => isSub (str "california") (lowerL r.jurisdiction)) _]
    cases hrc : llm.requires_compliance <;> simp <;> omega

/-- Members of `pyEnumFrom n l` carry indices in `[n, n + length)`. -/
theorem mem_pyEnumFrom {α : Type} :
    ∀ (l : List α) (n : ℕ) (p : ℕ × α), p ∈ pyEnumFrom n l → n ≤ p.1 ∧ p.1 < n + l.length := by
  intro l
  induction l with
  | nil =>
    intro n p h
    simp [pyEnumFrom] at h
  | cons a t ih =>
    intro n p h
    rw [show pyEnumFrom n (a :: t) = (n, a) :: pyEnumFrom (n + 1) t from rfl] at h
    rcases List.mem_cons.mp h with rfl | h'
    · simp
    · have := ih (n + 1) p h'
      refine ⟨by omega, ?_⟩
      rw [List.length_cons]
      omega

/-- The indices of `pyEnumFrom` are strictly increasing. -/
theorem pairwise_pyEnumFrom {α : Type} :
    ∀ (l : List α) (n : ℕ), (pyEnumFrom n l).Pairwise (fun p q => p.1 < q.1) := by
  intro l
  induction l with
  | nil => intro n; simp [pyEnumFrom]
  | cons a t ih =>
    intro n
    rw [show pyEnumFrom n (a :: t) = (n, a) :: pyEnumFrom (n + 1) t from rfl]
    refine List.Pairwise.cons ?_ (ih (n + 1))
    intro q hq
    have := mem_pyEnumFrom t (n + 1) q hq
    omega

/-- The indices of `pyEnum` are strictly increasing. -/
theorem pairwise_pyEnum {α : Type} (l : List α) :
    (pyEnum l).Pairwise (fun p q => p.1 < q.1) :=
  pairwise_pyEnumFrom l 0

/-- Members of `pyEnum l` have indices below `l.length`. -/
theorem mem_pyEnum_lt {α : Type} (l : List α) (p : ℕ × α) (h : p ∈ pyEnum l) :
    p.1 < l.length := by
  have := mem_pyEnumFrom l 0 p h
  omega

/-- Two sorting relations that agree on the elements of a list produce the
same ordered insertion. -/
theorem orderedInsert_congr {α : Type} (r s : α → α → Prop)
    [DecidableRel r] [DecidableRel s] (a : α) (l : List α)
    (h : ∀ b ∈ l, r a b ↔ s a b) :
    l.orderedInsert r a = l.orderedInsert s a := by
  induction l with
  | nil => rfl
  | cons b t ih =>
    rw [List.orderedInsert, List.orderedInsert]
    by_cases hr : r a b
    · rw [if_pos hr, if_pos ((h b (List.mem_cons_self b t)).mp hr)]
    · rw [if_neg hr, if_neg (fun hs => hr ((h b (List.mem_cons_self b t)).mpr hs)),
        ih (fun b' hb' => h b' (List.mem_cons_of_mem b hb'))]

/-- Two sorting relations that agree on every pair related by `P` sort a
`P`-pairwise list identically. -/
theorem insertionSort_congr {α : Type} (r s : α → α → Prop)
    [DecidableRel r] [DecidableRel s] (P : α → α → Prop) (l : List α)
    (hP : l.Pairwise P) (hrs : ∀ a b, P a b → (r a b ↔ s a b)) :
    l.insertionSort r = l.insertionSort s := by
  induction l with
  | nil => rfl
  | cons a t ih =>
    rw [List.insertionSort, List.insertionSort, ih (List.Pairwise.of_cons hP)]
    apply orderedInsert_congr
    intro b hb
    have hb' : b ∈ t := (List.perm_insertionSort s t).mem_iff.mp hb
    exact hrs a b (List.rel_of_pairwise_cons hP hb')

/-- On index-ordered pairs, Python's stable descending key sort agrees with
the strict ranking order of claim C5 (similarity descending, insertion
order on ties). -/
theorem key_le_iff_rankLex (a b : ℕ × ℚ) (h : a.1 < b.1) :
    (b.2 ≤ a.2) ↔ rankLex a b := by
  unfold rankLex
  constructor
  · intro hle
    rcases lt_or_eq_of_le hle with hlt | heq
    · exact Or.inl hlt
    · exact Or.inr ⟨heq.symm, le_of_lt h⟩
  · rintro (hlt | ⟨heq, -⟩)
    · exact le_of_lt hlt
    · exact le_of_eq heq.symm

/-- When every index is in range, the result loop succeeds and builds the
annotated copies. -/
theorem attachScores_ok (regs : List Regulation) :
    ∀ (l : List (ℕ × ℚ)), (∀ p ∈ l, p.1 < regs.length) →
      attachScores regs l =
        .ok (l.filterMap
          (fun p => (regs.get? p.1).map (fun r => { r with similarity_score := some p.2 }))) := by
  intro l
  induction l with
  | nil => intro _; rfl
  | cons p t ih =>
    intro h
    obtain ⟨i, s⟩ := p
    have hi : i < regs.length := h (i, s) (List.mem_cons_self _ _)
    cases hget : regs.get? i with
    | none => exact absurd (List.get?_eq_none.mp hget) (by omega)
    | some r =>
      rw [show attachScores regs ((i, s) :: t) =
        (match regs.get? i with
          | none => .error (str "list index out of range")
          | some r =>
            match attachScores regs t with
            | .ok l => .ok ({ r with similarity_score := some s } :: l)
            | .error e => .error e) from rfl]
      rw [hget, ih (fun q hq => h q (List.mem_cons_of_mem _ hq))]
      rw [List.filterMap_cons]
      have hget' : regs[i]? = some r := by
        rw [← List.get?_eq_getElem?]
        exact hget
      simp [hget']

/-- Every record produced by a successful result loop is a stored record
with a transient score attached. -/
theorem attachScores_mem (regs : List Regulation) :
    ∀ (l : List (ℕ × ℚ)) (out : List Regulation), attachScores regs l = .ok out →
      ∀ r ∈ out, ∃ r₀ s, r₀ ∈ regs ∧ r = { r₀ with similarity_score := some s } := by
  intro l
  induction l with
  | nil =>
    intro out h
    have : out = [] := by simpa [attachScores] using h.symm
    subst this
    simp
  | cons p t ih =>
    intro out h
    obtain ⟨i, s⟩ := p
    rw [show attachScores regs ((i, s) :: t) =
      (match regs.get? i with
        | none => .error (str "list index out of range")
        | some r =>
          match attachScores regs t with
          | .ok l => .ok ({ r with similarity_score := some s } :: l)
          | .error e => .error e) from rfl] at h
    cases hget : regs.get? i with
    | none => rw [hget] at h; cases h
    | some r₀ =>
      rw [hget] at h
      cases hrec : attachScores regs t with
      | error e => rw [hrec] at h; cases h
      | ok out' =>
        rw [hrec] at h
        have hout : { r₀ with similarity_score := some s } :: out' = out := by
          simpa using h
        subst hout
        intro r hr
        rcases List.mem_cons.mp hr with rfl | hr'
        · exact ⟨r₀, s, List.get?_mem hget, rfl⟩
        · exact ih out' hrec r hr'

/-- C5.  On a built, non-empty, consistent index (one similarity score per
stored regulation), `find_relevant_regulations` returns exactly the
spec-side retrieval: the regulations whose similarity is at least the
threshold, sorted by similarity descending with ties broken by corpus
insertion order, truncated to `max_results`, each carrying its score. -/
theorem find_relevant_regulations_spec (kb : KnowledgeBase) (text : Str)
    (threshold : ℚ) (max_results : ℕ)
    (hb : kb.is_built = true) (hne : kb.regulations ≠ [])
    (hlen : (kb.similarity text).length = kb.regulations.length) :
    (find_relevant_regulations kb text threshold max_results).1 =
      spec_retrieve kb text threshold max_results := by
  have hpw : ((pyEnum (kb.similarity text)).filter
      (fun p => decide (threshold ≤ p.2))).Pairwise (fun p q : ℕ × ℚ => p.1 < q.1) :=
    List.Pairwise.sublist (List.filter_sublist _) (pairwise_pyEnum (kb.similarity text))
  have hsort :
      ((pyEnum (kb.similarity text)).filter
          (fun p => decide (threshold ≤ p.2))).insertionSort (fun a b => b.2 ≤ a.2)
        = ((pyEnum (kb.similarity text)).filter
          (fun p => decide (threshold ≤ p.2))).insertionSort rankLex :=
    insertionSort_congr _ _ (fun p q => p.1 < q.1) _ hpw
      (fun a b hab => key_le_iff_rankLex a b hab)
  have hrange : ∀ p ∈ (((pyEnum (kb.similarity text)).filter
      (fun p => decide (threshold ≤ p.2))).insertionSort rankLex).take max_results,
      p.1 < kb.regulations.length := by
    intro p hp
    have hp₁ : p ∈ ((pyEnum (kb.similarity text)).filter
        (fun p => decide (threshold ≤ p.2))).insertionSort rankLex :=
      List.mem_of_mem_take hp
    have hp₂ : p ∈ (pyEnum (kb.similarity text)).filter
        (fun p => decide (threshold ≤ p.2)) :=
      (List.perm_insertionSort rankLex _).mem_iff.mp hp₁
    have hp₃ : p ∈ pyEnum (kb.similarity text) := List.mem_of_mem_filter hp₂
    have := mem_pyEnum_lt _ p hp₃
    omega
  unfold find_relevant_regulations
  rw [if_neg (by simp [hb])]
  simp only [find_relevant_body]
  rw [hsort, attachScores_ok kb.regulations _ hrange]
  simp only [spec_retrieve]

/-- Witness for C5: a concrete built two-record index with tied scores. -/
theorem find_relevant_regulations_spec_witness :
    kbBuilt.is_built = true ∧ kbBuilt.regulations ≠ [] ∧
    (find_relevant_regulations kbBuilt (str "query") (1/10) 5).1 =
      spec_retrieve kbBuilt (str "query") (1/10) 5 :=
  ⟨rfl, by simp [kbBuilt],
    find_relevant_regulations_spec kbBuilt (str "query") (1/10) 5 rfl (by simp [kbBuilt]) rfl⟩

/-- C8.  On an index that was never built, or whose corpus is empty, every
query returns the empty list (and the model is total: nothing escapes the
`try/except` boundary). -/
theorem find_relevant_regulations_empty (kb : KnowledgeBase) (text : Str)
    (threshold : ℚ) (max_results : ℕ)
    (h : kb.is_built = false ∨ kb.regulations = []) :
    find_relevant_regulations kb text threshold max_results = ([], kb) := by
  unfold find_relevant_regulations
  rcases h with hb | hr
  · rw [if_pos hb]
  · by_cases hb : kb.is_built = false
    · rw [if_pos hb]
    · rw [if_neg hb]
      simp only [find_relevant_body, hr]
      cases htop : ((((pyEnum (kb.similarity text)).filter
          (fun p => decide (threshold ≤ p.2))).insertionSort
            (fun a b => b.2 ≤ a.2)).take max_results) with
      | nil => rfl
      | cons p t =>
        obtain ⟨i, s⟩ := p
        rfl

/-- Witness for C8: the unbuilt fixture index. -/
theorem find_relevant_regulations_empty_witness :
    find_relevant_regulations kbUnbuilt (str "query") (1/10) 5 = ([], kbUnbuilt) :=
  find_relevant_regulations_empty kbUnbuilt (str "query") (1/10) 5 (Or.inl rfl)

/-- C10.  Retrieval leaves the knowledge-base state unchanged, and every
returned record is a copy of some stored record with only the transient
`similarity_score` attached — the stored records themselves never carry
the score. -/
theorem find_relevant_regulations_frame (kb : KnowledgeBase) (text : Str)
    (threshold : ℚ) (max_results : ℕ) :
    (find_relevant_regulations kb text threshold max_results).2 = kb ∧
    ∀ r ∈ (find_relevant_regulations kb text threshold max_results).1,
      ∃ r₀ s, r₀ ∈ kb.regulations ∧ r = { r₀ with similarity_score := some s } := by
  unfold find_relevant_regulations
  by_cases hb : kb.is_built = false
  · rw [if_pos hb]
    exact ⟨rfl, by simp⟩
  · rw [if_neg hb]
    cases hres : find_relevant_body kb text threshold max_results with
    | error e => exact ⟨rfl, by simp⟩
    | ok out =>
      refine ⟨rfl, ?_⟩
      simp only [find_relevant_body] at hres
      exact fun r hr => attachScores_mem kb.regulations _ out hres r hr
